import Mathlib

/-!
Verification development for the keyframe timeline engine of the
AnimationBuilder editor (`AnimationBuilder.tsx`, `animationUtils.ts`).

Conventions of the shallow embedding:
* JS numbers that hold times and durations are modelled as `ℤ`
  (the data model declares keyframe times, the timeline duration and the
  snap interval as integer milliseconds); continuous quantities
  (translate, opacity, pointer coordinates, the current time) are `ℚ`.
* `Math.round` is `jsRound` (floor of `x + 1/2`, which is JS semantics).
* `Array.prototype.sort` with the comparator `(a, b) => a.time - b.time`
  is a stable sort by `time`; it is modelled by `List.insertionSort`,
  which is also stable, so the two agree extensionally.
* `localStorage`/`JSON.parse` are host primitives; `JSON.parse` is
  abstracted as a `String → Except Unit (List Preset)` parameter whose
  `.error` case models a thrown exception.
-/

/-- `KeyframePoint` from `AnimationBuilder.tsx`. -/
structure KeyframePoint where
  id : String
  time : ℤ
  translate : ℚ
  opacity : ℚ
  easing : Option String := none
  bezier : Option (ℚ × ℚ × ℚ × ℚ) := none
deriving DecidableEq, Repr

/-- `LayerConfig` from `AnimationBuilder.tsx`. -/
structure LayerConfig where
  id : String
  label : String
  depth : ℚ
  color : String
  image : Option String := none
  visible : Bool := true
  x : Option ℚ := none
  y : Option ℚ := none
  w : Option ℚ := none
  h : Option ℚ := none
  keyframes : List KeyframePoint
deriving DecidableEq, Repr

/-- `defaultLayer()` from `AnimationBuilder.tsx`; the three `mkId()`
pseudo-random identifiers are passed in as parameters. -/
def defaultLayer (lid ka kb : String) : LayerConfig :=
  { id := lid
    label := "Layer"
    depth := 1/2
    color := "#ffffff"
    image := none
    visible := true
    x := some 50
    y := some 50
    w := some 60
    h := some 30
    keyframes :=
      [ { id := ka, time := 0, translate := 40, opacity := 0, easing := some "linear" }
      , { id := kb, time := 1000, translate := 0, opacity := 1, easing := some "linear" } ] }

/-- `clamp(v, a, b)` from `animationUtils.ts`: `Math.max(a, Math.min(b, v))`. -/
def clamp (v a b : ℚ) : ℚ := max a (min b v)

/-- `lerp(a, b, t)` from `animationUtils.ts`. -/
def lerp (a b t : ℚ) : ℚ := a + (b - a) * t

/-- JS `Math.round`: half-up rounding toward `+∞`, i.e. `⌊x + 1/2⌋`. -/
def jsRound (x : ℚ) : ℤ := ⌊x + 1/2⌋

/-- `snap(value, interval)` from `animationUtils.ts`:
`interval > 0 ? Math.round(value / interval) * interval : value`. -/
def snap (value : ℚ) (interval : ℤ) : ℚ :=
  if 0 < interval then ((jsRound (value / (interval : ℚ)) : ℚ)) * (interval : ℚ) else value

/-- `sampleCurveX`/`sampleCurveY` from `cubicBezierEasing`:
`((a*t + b)*t + c)*t`. -/
def sampleCurve (a b c t : ℚ) : ℚ := ((a * t + b) * t + c) * t

/-- The binary-search loop of `cubicBezierEasing`: 25 iterations, early exit
once `|X(mid) - x| < 1e-6`; returns the final `mid`.  The third accumulator
is the `mid` variable that survives the loop when the fuel runs out. -/
def bezierSolve (ax bx cx x : ℚ) : Nat → ℚ → ℚ → ℚ → ℚ
  | 0, _, _, mid => mid
  | n + 1, low, high, _ =>
    let mid := (low + high) / 2
    let xEst := sampleCurve ax bx cx mid
    if |xEst - x| < 1 / 1000000 then mid
    else if x < xEst then bezierSolve ax bx cx x n low mid mid
    else bezierSolve ax bx cx x n mid high mid

/-- `cubicBezierEasing(x1, y1, x2, y2)(x)` from `animationUtils.ts`. -/
def cubicBezierEasing (x1 y1 x2 y2 x : ℚ) : ℚ :=
  let cx := 3 * x1
  let bx := 3 * (x2 - x1) - cx
  let ax := 1 - cx - bx
  let cy := 3 * y1
  let b2 := 3 * (y2 - y1) - cy
  let ay := 1 - cy - b2
  sampleCurve ay b2 cy (bezierSolve ax bx cx x 25 0 1 0)

/-- `next.easing || 'linear'` (the empty string is falsy in JS). -/
def effEasing (k : KeyframePoint) : String :=
  match k.easing with
  | none => "linear"
  | some s => if s = "" then "linear" else s

/-- The `easeT` switch inside `draw`. -/
def easeNamed (easing : String) (t : ℚ) : ℚ :=
  if easing = "ease-in" then t * t
  else if easing = "ease-out" then t * (2 - t)
  else if easing = "ease" then (if t < 1/2 then 2 * t * t else -1 + (4 - 2 * t) * t)
  else t

/-- Easing resolution inside `draw`: `next.bezier` takes precedence,
otherwise the named easing switch. -/
def easedOf (next : KeyframePoint) (localT : ℚ) : ℚ :=
  match next.bezier with
  | some (x1, y1, x2, y2) => cubicBezierEasing x1 y1 x2 y2 localT
  | none => easeNamed (effEasing next) localT

/-- The per-pair sample `draw` paints: `translate = lerp(prev.translate,
next.translate, eased)` and `ctx.globalAlpha = clamp(lerp(prev.opacity,
next.opacity, eased), 0, 1)`. -/
def pairSample (prev next : KeyframePoint) (localT : ℚ) : ℚ × ℚ :=
  let eased := easedOf next localT
  (lerp prev.translate next.translate eased,
   clamp (lerp prev.opacity next.opacity eased) 0 1)

/-- The scan loop of `draw` (and, verbatim, of the exported React component
and of the HTML preview's `drawAt`):
`for i: if (kf[i].time <= t) prev = kf[i]; if (kf[i].time >= t) { next = kf[i]; break }`. -/
def scanPrevNext (t : ℚ) : List KeyframePoint → KeyframePoint → KeyframePoint → KeyframePoint × KeyframePoint
  | [], prev, next => (prev, next)
  | k :: rest, prev, next =>
    let prev' := if (k.time : ℚ) ≤ t then k else prev
    if t ≤ (k.time : ℚ) then (prev', k)
    else scanPrevNext t rest prev' next

/-- The scan started the way `draw` does: `prev = kf[0]`,
`next = kf[kf.length - 1]`. -/
def selectFrom (t : ℚ) (k : KeyframePoint) (rest : List KeyframePoint) : KeyframePoint × KeyframePoint :=
  scanPrevNext t (k :: rest) k (rest.getLastD k)

/-- The interpolation of `draw` in `AnimationBuilder.tsx` for one layer:
keyframe selection, `span = next.time - prev.time || 1`,
`localT = clamp((t - prev.time)/span, 0, 1)`, then the eased sample.
An empty keyframe list is skipped (`none`). -/
def sampleLayer (kfs : List KeyframePoint) (t : ℚ) : Option (ℚ × ℚ) :=
  match kfs with
  | [] => none
  | k :: rest =>
    let pn := selectFrom t k rest
    let span : ℤ := pn.2.time - pn.1.time
    let span2 : ℤ := if span = 0 then 1 else span
    let localT : ℚ := clamp ((t - (pn.1.time : ℚ)) / (span2 : ℚ)) 0 1
    some (pairSample pn.1 pn.2 localT)

/-- The sampling re-implemented in `generateReactComponentString` and
`generateHtmlPreviewString` (both templates carry the identical algorithm):
same scan, `span = Math.max(1, next.time - prev.time)`,
`localT = Math.max(0, Math.min(1, (t - prev.time)/span))`, linear
interpolation with no easing, and the raw (unclamped) opacity passed to
`ctx.globalAlpha`. -/
def exportSample (kfs : List KeyframePoint) (t : ℚ) : Option (ℚ × ℚ) :=
  match kfs with
  | [] => none
  | k :: rest =>
    let pn := selectFrom t k rest
    let span : ℤ := max 1 (pn.2.time - pn.1.time)
    let localT : ℚ := max 0 (min 1 ((t - (pn.1.time : ℚ)) / (span : ℚ)))
    some (pn.1.translate + (pn.2.translate - pn.1.translate) * localT,
          pn.1.opacity + (pn.2.opacity - pn.1.opacity) * localT)

/-- The keyframe ordering used by the editor's `.sort((a, b) => a.time - b.time)`. -/
def kfLE (a b : KeyframePoint) : Prop := a.time ≤ b.time

instance : DecidableRel kfLE := fun a b => inferInstanceAs (Decidable (a.time ≤ b.time))

instance : IsTotal KeyframePoint kfLE := ⟨fun a b => Int.le_total a.time b.time⟩

instance : IsTrans KeyframePoint kfLE := ⟨fun _ _ _ h1 h2 => le_trans h1 h2⟩

/-- `[...].sort((a, b) => a.time - b.time)`: a stable sort by time. -/
def sortKfs (l : List KeyframePoint) : List KeyframePoint := l.insertionSort kfLE

/-- `Partial<KeyframePoint>` as used by `updateKeyframe`. -/
structure KfPatch where
  id : Option String := none
  time : Option ℤ := none
  translate : Option ℚ := none
  opacity : Option ℚ := none
  easing : Option (Option String) := none
  bezier : Option (Option (ℚ × ℚ × ℚ × ℚ)) := none
deriving DecidableEq, Repr

/-- The JS spread `{ ...k, ...patch }`. -/
def applyPatch (k : KeyframePoint) (p : KfPatch) : KeyframePoint :=
  { id := p.id.getD k.id
    time := p.time.getD k.time
    translate := p.translate.getD k.translate
    opacity := p.opacity.getD k.opacity
    easing := p.easing.getD k.easing
    bezier := p.bezier.getD k.bezier }

/-- The per-layer body of `updateKeyframe`. -/
def updateKfLayer (layerId kfId : String) (patch : KfPatch) (l : LayerConfig) : LayerConfig :=
  if l.id = layerId then
    { l with keyframes := sortKfs (l.keyframes.map fun k => if k.id = kfId then applyPatch k patch else k) }
  else l

/-- `updateKeyframe(layerId, kfId, patch)` from `AnimationBuilder.tsx`. -/
def updateKeyframe (layers : List LayerConfig) (layerId kfId : String) (patch : KfPatch) : List LayerConfig :=
  layers.map (updateKfLayer layerId kfId patch)

/-- The per-layer body of `addKeyframe`; `newId` stands for `mkId()`. -/
def addKfLayer (layerId newId : String) (time : ℤ) (l : LayerConfig) : LayerConfig :=
  if l.id = layerId then
    { l with keyframes := sortKfs (l.keyframes ++ [{ id := newId, time := time, translate := 0, opacity := 1 }]) }
  else l

/-- `addKeyframe(layerId, time)` from `AnimationBuilder.tsx`. -/
def addKeyframe (layers : List LayerConfig) (layerId newId : String) (time : ℤ) : List LayerConfig :=
  layers.map (addKfLayer layerId newId time)

/-- The per-layer body of `removeKeyframe`. -/
def removeKfLayer (layerId kfId : String) (l : LayerConfig) : LayerConfig :=
  if l.id = layerId then
    { l with keyframes := l.keyframes.filter fun k => k.id ≠ kfId }
  else l

/-- `removeKeyframe(layerId, kfId)` from `AnimationBuilder.tsx`. -/
def removeKeyframe (layers : List LayerConfig) (layerId kfId : String) : List LayerConfig :=
  layers.map (removeKfLayer layerId kfId)

/-- The keyboard nudge `Math.max(0, k.time - delta)` (ArrowLeft / `-`). -/
def nudgeLeftTime (t delta : ℤ) : ℤ := max 0 (t - delta)

/-- The keyboard nudge `Math.min(timelineDuration, k.time + delta)`
(ArrowRight / `+`). -/
def nudgeRightTime (duration t delta : ℤ) : ℤ := min duration (t + delta)

/-- The time computed and stored by `onTimelinePointerMove`:
`x = clientX - rectLeft; t = clamp(x / rectWidth, 0, 1) * timelineDuration;
if (snapEnabled && snapInterval > 0) t = snap(t, snapInterval);
updateKeyframe(..., { time: Math.round(t) })`. -/
def dragStoredTime (clientX rectLeft rectWidth : ℚ) (duration : ℤ)
    (snapEnabled : Bool) (snapInterval : ℤ) : ℤ :=
  let x := clientX - rectLeft
  let t0 := clamp (x / rectWidth) 0 1 * (duration : ℚ)
  let t1 := if snapEnabled ∧ 0 < snapInterval then snap t0 snapInterval else t0
  jsRound t1

/-- The keyframe time input's `onChange`:
`updateKeyframe(layer.id, k.id, { time: Number(e.target.value) })` —
the entered value is stored as-is. -/
def inputStoredTime (v : ℤ) : ℤ := v

/-- The drag state recorded by `onTimelinePointerDown`. -/
structure DragState where
  layerId : String
  kfId : String
  offsetX : ℚ
  rectLeft : ℚ
  rectWidth : ℚ
deriving DecidableEq, Repr

/-- One iteration of the auto-scroll `requestAnimationFrame` loop started by
`onTimelinePointerDown`.  `windowEventClientX` models
`(window.event as PointerEvent)?.clientX` — `none` when no event is being
dispatched (the usual case inside an animation-frame callback).  The code
then falls back to the pointer-DOWN position
`dragState.rectLeft + dragState.offsetX` (`clientX = cx || fallback`, so a
genuine `clientX` of `0` also falls back).  Returns the new `scrollLeft`. -/
def autoScrollStep (drag : Option DragState) (windowEventClientX : Option ℚ)
    (srectLeft srectRight scrollLeft : ℚ) : ℚ :=
  match drag with
  | none => scrollLeft
  | some ds =>
    let cx := windowEventClientX.getD 0
    let clientX := if cx = 0 then ds.rectLeft + ds.offsetX else cx
    let edge : ℚ := 48
    let speed : ℚ := 12
    if clientX - srectLeft < edge then max 0 (scrollLeft - speed)
    else if srectRight - clientX < edge then scrollLeft + speed
    else scrollLeft

/-- The playback state held in `playing` / `currentTime`. -/
structure PlaybackState where
  playing : Bool
  currentTime : ℚ
deriving DecidableEq, Repr

/-- One frame callback of the playback loop effect:
`t = now - start; if (t >= timelineDuration) { setCurrentTime(duration);
setPlaying(false); return } setCurrentTime(t); raf(loop)`.
The boolean is whether another frame is scheduled. -/
def tick (duration start now : ℚ) (s : PlaybackState) : PlaybackState × Bool :=
  if (duration : ℚ) ≤ now - start then ({ playing := false, currentTime := duration }, false)
  else ({ s with currentTime := now - start }, true)

/-- Run the playback loop over a list of frame timestamps; the loop stops as
soon as a tick does not reschedule. -/
def runTicks (duration start : ℚ) : List ℚ → PlaybackState → PlaybackState
  | [], s => s
  | now :: rest, s =>
    let r := tick duration start now s
    if r.2 then runTicks duration start rest r.1 else r.1

/-- A saved preset `{ name, config }`. -/
structure Preset where
  name : String
  config : List LayerConfig
deriving DecidableEq, Repr

/-- The `presets` `useState` initializer:
`try { const raw = localStorage.getItem(key); return raw ? JSON.parse(raw) : [] }
catch { return [] }`.  `stored` is the key-value store's content (`none` for
an absent key); `parse` abstracts `JSON.parse`, with `.error` modelling a
thrown exception, which the `catch` turns into `[]`.  The empty string is
falsy in JS, so it also yields `[]`. -/
def loadPresets (parse : String → Except Unit (List Preset)) (stored : Option String) : List Preset :=
  match stored with
  | none => []
  | some raw =>
    if raw = "" then []
    else
      match parse raw with
      | Except.error _ => []
      | Except.ok v => v

/-- A `JSON.parse` model that always throws, for witnesses. -/
def parseAlwaysFails : String → Except Unit (List Preset) := fun _ => Except.error ()

/-- A `JSON.parse` model that always succeeds with a fixed list, for witnesses. -/
def parseConst (v : List Preset) : String → Except Unit (List Preset) := fun _ => Except.ok v

/-- Strict keyframe ordering: pairwise strictly increasing times. -/
def kfLT (a b : KeyframePoint) : Prop := a.time < b.time

/-- Two keyframes sharing time `0` with different values (such a layer is
reachable: pressing `A` twice adds two keyframes at the same current time). -/
def kfDupA : KeyframePoint := { id := "a", time := 0, translate := 0, opacity := 1, easing := some "linear" }

/-- See `kfDupA`. -/
def kfDupB : KeyframePoint := { id := "b", time := 0, translate := 7, opacity := 0, easing := some "linear" }

/-- A linear keyframe at `t = 0` for concrete instances. -/
def kfLinA : KeyframePoint := { id := "a", time := 0, translate := 2, opacity := 0, easing := some "linear" }

/-- A linear keyframe at `t = 1000` for concrete instances. -/
def kfLinB : KeyframePoint := { id := "b", time := 1000, translate := 0, opacity := 1, easing := some "linear" }

/-- An `ease-in` keyframe at `t = 0` for concrete instances. -/
def kfEaseA : KeyframePoint := { id := "a", time := 0, translate := 0, opacity := 0, easing := some "ease-in" }

/-- An `ease-in` keyframe at `t = 1000` for concrete instances. -/
def kfEaseB : KeyframePoint := { id := "b", time := 1000, translate := 100, opacity := 1, easing := some "ease-in" }

/-- A concrete layer with two linear keyframes. -/
def layerOne : LayerConfig :=
  { id := "L", label := "Layer", depth := 1/2, color := "#ffffff", keyframes := [kfLinA, kfLinB] }

/-- A concrete layer with a different id. -/
def layerOther : LayerConfig :=
  { id := "M", label := "Other", depth := 1/2, color := "#000000", keyframes := [kfLinA] }

/-- A concrete patch setting only the time. -/
def patch500 : KfPatch := { time := some 500 }

/-- A drag that started at the centre of a `[0, 1000]` track. -/
def dsCenter : DragState := { layerId := "l", kfId := "k", offsetX := 500, rectLeft := 0, rectWidth := 1000 }

/-- A drag that started `10px` from the left edge of a `[0, 1000]` track. -/
def dsEdge : DragState := { layerId := "l", kfId := "k", offsetX := 10, rectLeft := 0, rectWidth := 1000 }

/-- An `ease-out` keyframe for concrete instances. -/
def kfOut : KeyframePoint := { id := "c", time := 500, translate := 10, opacity := 1, easing := some "ease-out" }

/-- An `ease` keyframe for concrete instances. -/
def kfEase : KeyframePoint := { id := "d", time := 700, translate := 5, opacity := 1, easing := some "ease" }

/-- A keyframe carrying explicit bezier control points. -/
def kfBez : KeyframePoint :=
  { id := "z", time := 300, translate := 0, opacity := 1, easing := none,
    bezier := some (1/4, 1/10, 1/4, 1) }

/-- A `JSON.parse` model that throws on one particular string and parses
everything else to the empty list, for witnesses. -/
def parseDemo : String → Except Unit (List Preset) :=
  fun s => if s = "bad" then Except.error () else Except.ok []

/-- A drag that started `20px` from the right edge of a `[0, 1000]` track. -/
def dsRight : DragState := { layerId := "l", kfId := "k", offsetX := 980, rectLeft := 0, rectWidth := 1000 }

/-- A concrete layer whose keyframes all have ids different from `"a"`. -/
def layerNo : LayerConfig :=
  { id := "N", label := "NoMatch", depth := 1/2, color := "#ffffff", keyframes := [kfLinB] }

/-! ## Helper lemmas about the keyframe scan -/

/-- The scan on a list whose elements are all strictly before `t` never breaks:
`prev` ends at the last element and `next` keeps its initial value. -/
theorem scanPrevNext_all_lt (t : ℚ) :
    ∀ (l : List KeyframePoint) (p n : KeyframePoint),
      (∀ x ∈ l, (x.time : ℚ) < t) → scanPrevNext t l p n = (l.getLastD p, n)
  | [], p, n, _ => rfl
  | k :: rest, p, n, h => by
    have hk : (k.time : ℚ) < t := h k (List.mem_cons_self k rest)
    have hbr : ¬ t ≤ (k.time : ℚ) := not_le.mpr hk
    have hle : (k.time : ℚ) ≤ t := le_of_lt hk
    simp only [scanPrevNext, if_pos hle, if_neg hbr]
    rw [scanPrevNext_all_lt t rest k n (fun x hx => h x (List.mem_cons_of_mem k hx))]
    rw [List.getLastD_cons]

/-- On a strictly time-sorted list the scan computes: `prev` is the last
element with `time ≤ t` (defaulting to `p`), `next` the first element with
`time ≥ t` (defaulting to `n`). -/
theorem scanPrevNext_char (t : ℚ) :
    ∀ (l : List KeyframePoint), List.Pairwise (fun a b : KeyframePoint => a.time < b.time) l →
    ∀ p n, scanPrevNext t l p n =
      ((l.filter (fun x => decide ((x.time : ℚ) ≤ t))).getLastD p,
       (l.find? (fun x => decide (t ≤ (x.time : ℚ)))).getD n)
  | [], _, p, n => rfl
  | k :: rest, hs, p, n => by
    rcases List.pairwise_cons.mp hs with ⟨hk, hrest⟩
    by_cases hbr : t ≤ (k.time : ℚ)
    · have hfind : (k :: rest).find? (fun x => decide (t ≤ (x.time : ℚ))) = some k :=
        List.find?_cons_of_pos rest (by simpa using hbr)
      by_cases hle : (k.time : ℚ) ≤ t
      · have hrestf : rest.filter (fun x => decide ((x.time : ℚ) ≤ t)) = [] := by
          apply List.filter_eq_nil_iff.mpr
          intro x hx
          have : (k.time : ℚ) < (x.time : ℚ) := by exact_mod_cast hk x hx
          simp only [decide_eq_true_eq, not_le]
          linarith [le_antisymm hle hbr ▸ this]
        simp only [scanPrevNext, if_pos hle, if_pos hbr, hfind, List.filter_cons,
          decide_eq_true_eq, hle, if_pos, hrestf, Option.getD_some]
        simp [List.getLastD]
      · have hfilter : (k :: rest).filter (fun x => decide ((x.time : ℚ) ≤ t)) = [] := by
          apply List.filter_eq_nil_iff.mpr
          intro x hx
          rcases List.mem_cons.mp hx with rfl | hx'
          · simpa using hle
          · have h1 : (k.time : ℚ) < (x.time : ℚ) := by exact_mod_cast hk x hx'
            have h2 : t < (k.time : ℚ) := not_le.mp hle
            simp only [decide_eq_true_eq, not_le]
            linarith
        simp only [scanPrevNext, if_neg hle, if_pos hbr, hfind, hfilter, Option.getD_some]
        simp [List.getLastD]
    · -- k.time < t, continue scanning
      have hk_lt : (k.time : ℚ) < t := not_le.mp hbr
      have hle : (k.time : ℚ) ≤ t := le_of_lt hk_lt
      have hfind : (k :: rest).find? (fun x => decide (t ≤ (x.time : ℚ)))
          = rest.find? (fun x => decide (t ≤ (x.time : ℚ))) :=
        List.find?_cons_of_neg rest (by simpa using hbr)
      have hfilter : (k :: rest).filter (fun x => decide ((x.time : ℚ) ≤ t))
          = k :: rest.filter (fun x => decide ((x.time : ℚ) ≤ t)) := by
        simp [List.filter_cons, hle]
      simp only [scanPrevNext, if_pos hle, if_neg hbr]
      rw [scanPrevNext_char t rest hrest k n, hfind, hfilter, List.getLastD_cons]

/-- The scan's `prev` either keeps its initial value or is an element of the
list whose time is `≤ t`. -/
theorem scanPrevNext_fst_cases (t : ℚ) :
    ∀ (l : List KeyframePoint) (p n : KeyframePoint),
      (scanPrevNext t l p n).1 = p ∨
        ((scanPrevNext t l p n).1 ∈ l ∧ ((scanPrevNext t l p n).1.time : ℚ) ≤ t)
  | [], p, n => Or.inl rfl
  | k :: rest, p, n => by
    by_cases hbr : t ≤ (k.time : ℚ)
    · by_cases hle : (k.time : ℚ) ≤ t
      · simp only [scanPrevNext, if_pos hle, if_pos hbr]
        exact Or.inr ⟨List.mem_cons_self k rest, hle⟩
      · simp only [scanPrevNext, if_neg hle, if_pos hbr]
        left
        trivial
    · have hle : (k.time : ℚ) ≤ t := le_of_lt (not_le.mp hbr)
      simp only [scanPrevNext, if_pos hle, if_neg hbr]
      rcases scanPrevNext_fst_cases t rest k n with h | ⟨h1, h2⟩
      · right
        rw [h]
        exact ⟨List.mem_cons_self k rest, hle⟩
      · exact Or.inr ⟨List.mem_cons_of_mem k h1, h2⟩

/-- The scan's `next` either keeps its initial value or is an element of the
list whose time is `≥ t`. -/
theorem scanPrevNext_snd_cases (t : ℚ) :
    ∀ (l : List KeyframePoint) (p n : KeyframePoint),
      (scanPrevNext t l p n).2 = n ∨
        ((scanPrevNext t l p n).2 ∈ l ∧ t ≤ ((scanPrevNext t l p n).2.time : ℚ))
  | [], p, n => Or.inl rfl
  | k :: rest, p, n => by
    by_cases hbr : t ≤ (k.time : ℚ)
    · simp only [scanPrevNext, if_pos hbr]
      exact Or.inr ⟨List.mem_cons_self k rest, hbr⟩
    · have hle : (k.time : ℚ) ≤ t := le_of_lt (not_le.mp hbr)
      simp only [scanPrevNext, if_pos hle, if_neg hbr]
      rcases scanPrevNext_snd_cases t rest k n with h | ⟨h1, h2⟩
      · exact Or.inl h
      · exact Or.inr ⟨List.mem_cons_of_mem k h1, h2⟩

/-- If some element of a strictly time-sorted list has time exactly `t`,
the scan breaks there with `prev = next` that element. -/
theorem scanPrevNext_exact (t : ℚ) :
    ∀ (l : List KeyframePoint), List.Pairwise (fun a b : KeyframePoint => a.time < b.time) l →
    ∀ (x : KeyframePoint), x ∈ l → (x.time : ℚ) = t →
    ∀ p n, scanPrevNext t l p n = (x, x)
  | [], _, x, hx, _, _, _ => absurd hx (List.not_mem_nil x)
  | k :: rest, hs, x, hx, hxt, p, n => by
    rcases List.pairwise_cons.mp hs with ⟨hk, hrest⟩
    rcases List.mem_cons.mp hx with rfl | hx'
    · have hle : (x.time : ℚ) ≤ t := le_of_eq hxt
      have hbr : t ≤ (x.time : ℚ) := ge_of_eq hxt
      simp only [scanPrevNext, if_pos hle, if_pos hbr]
    · have hklt : (k.time : ℚ) < t := by
        have : (k.time : ℚ) < (x.time : ℚ) := by exact_mod_cast hk x hx'
        linarith [hxt ▸ this]
      have hle : (k.time : ℚ) ≤ t := le_of_lt hklt
      have hbr : ¬ t ≤ (k.time : ℚ) := not_le.mpr hklt
      simp only [scanPrevNext, if_pos hle, if_neg hbr]
      exact scanPrevNext_exact t rest hrest x hx' hxt k n

/-- In a `time`-sorted list the head's time bounds every element's time. -/
theorem head_time_le_of_sorted :
    ∀ (k : KeyframePoint) (rest : List KeyframePoint), List.Pairwise kfLE (k :: rest) →
      ∀ x ∈ k :: rest, k.time ≤ x.time := by
  intro k rest hs x hx
  rcases List.mem_cons.mp hx with rfl | hx'
  · exact le_refl _
  · exact (List.pairwise_cons.mp hs).1 x hx'

/-- In a `time`-sorted list every element's time is bounded by the last one's. -/
theorem time_le_getLastD_of_sorted :
    ∀ (k : KeyframePoint) (rest : List KeyframePoint), List.Pairwise kfLE (k :: rest) →
      ∀ x ∈ k :: rest, x.time ≤ (rest.getLastD k).time
  | k, [], _, x, hx => by
    rcases List.mem_cons.mp hx with rfl | hx'
    · exact le_refl _
    · exact absurd hx' (List.not_mem_nil x)
  | k, k2 :: rest2, hs, x, hx => by
    rcases List.pairwise_cons.mp hs with ⟨hk, hrest⟩
    rw [List.getLastD_cons]
    rcases List.mem_cons.mp hx with rfl | hx'
    · calc x.time ≤ k2.time := hk k2 (List.mem_cons_self k2 rest2)
        _ ≤ (rest2.getLastD k2).time :=
          time_le_getLastD_of_sorted k2 rest2 hrest k2 (List.mem_cons_self k2 rest2)
    · exact time_le_getLastD_of_sorted k2 rest2 hrest x hx'

/-- Both components of `selectFrom` are keyframes of the layer. -/
theorem selectFrom_mem (t : ℚ) (k : KeyframePoint) (rest : List KeyframePoint) :
    (selectFrom t k rest).1 ∈ k :: rest ∧ (selectFrom t k rest).2 ∈ k :: rest := by
  constructor
  · rcases scanPrevNext_fst_cases t (k :: rest) k (rest.getLastD k) with h | ⟨h1, _⟩
    · rw [selectFrom, h]
      exact List.mem_cons_self k rest
    · exact h1
  · rcases scanPrevNext_snd_cases t (k :: rest) k (rest.getLastD k) with h | ⟨h1, _⟩
    · rw [selectFrom, h]
      exact List.getLastD_mem_cons rest k
    · exact h1

/-- On a (possibly non-strictly) `time`-sorted layer the selected pair
satisfies `prev.time ≤ next.time`. -/
theorem selectFrom_mono (t : ℚ) (k : KeyframePoint) (rest : List KeyframePoint)
    (hs : List.Pairwise kfLE (k :: rest)) :
    (selectFrom t k rest).1.time ≤ (selectFrom t k rest).2.time := by
  rcases scanPrevNext_fst_cases t (k :: rest) k (rest.getLastD k) with h1 | ⟨hm1, ht1⟩ <;>
    rcases scanPrevNext_snd_cases t (k :: rest) k (rest.getLastD k) with h2 | ⟨hm2, ht2⟩
  · rw [selectFrom, h1, h2]
    exact time_le_getLastD_of_sorted k rest hs k (List.mem_cons_self k rest)
  · rw [selectFrom, h1]
    exact head_time_le_of_sorted k rest hs _ hm2
  · rw [selectFrom, h2]
    exact time_le_getLastD_of_sorted k rest hs _ hm1
  · have : ((selectFrom t k rest).1.time : ℚ) ≤ ((selectFrom t k rest).2.time : ℚ) :=
      le_trans ht1 ht2
    exact_mod_cast this

/-- `clamp v 0 1` always lands in `[0, 1]`. -/
theorem clamp01_mem (v : ℚ) : 0 ≤ clamp v 0 1 ∧ clamp v 0 1 ≤ 1 := by
  unfold clamp
  constructor
  · exact le_max_left 0 _
  · exact max_le (by norm_num) (min_le_left 1 v)

/-- `clamp` is the identity on values already in range. -/
theorem clamp01_of_mem {v : ℚ} (h0 : 0 ≤ v) (h1 : v ≤ 1) : clamp v 0 1 = v := by
  unfold clamp
  rw [min_eq_right h1, max_eq_right h0]

/-- Interpolating between equal endpoints gives that endpoint whatever the
(possibly overshooting) eased progress is. -/
theorem lerp_same (a e : ℚ) : lerp a a e = a := by
  unfold lerp
  ring

/-- Sampling a coincident `prev = next` pair reproduces that keyframe's
`(translate, opacity)` exactly, provided its opacity is in `[0, 1]`. -/
theorem pairSample_diag (x : KeyframePoint) (e : ℚ)
    (h0 : 0 ≤ x.opacity) (h1 : x.opacity ≤ 1) :
    pairSample x x e = (x.translate, x.opacity) := by
  unfold pairSample
  simp only
  rw [lerp_same, lerp_same, clamp01_of_mem h0 h1]

/-- The zero-span guard `span || 1` agrees with `max(1, span)` on the
integer spans a sorted layer produces. -/
theorem span_guard_eq_max {s : ℤ} (h : 0 ≤ s) : (if s = 0 then 1 else s) = max 1 s := by
  rcases eq_or_lt_of_le h with h0 | h0
  · simp [← h0]
  · rw [if_neg (by omega), max_eq_right (by omega)]

/-- If the query time is at or before the head keyframe's time the scan
breaks immediately with `prev = next = head`. -/
theorem selectFrom_before {t : ℚ} (k : KeyframePoint) (rest : List KeyframePoint)
    (h : t ≤ (k.time : ℚ)) : selectFrom t k rest = (k, k) := by
  unfold selectFrom scanPrevNext
  by_cases hle : (k.time : ℚ) ≤ t
  · simp [hle, h]
  · simp [hle, h]

/-- On a strictly sorted layer, a query at or after the last keyframe's time
selects `prev = next = last`. -/
theorem selectFrom_after {t : ℚ} (k : KeyframePoint) (rest : List KeyframePoint)
    (hs : List.Pairwise kfLT (k :: rest)) (h : ((rest.getLastD k).time : ℚ) ≤ t) :
    selectFrom t k rest = (rest.getLastD k, rest.getLastD k) := by
  have hs' : List.Pairwise (fun a b : KeyframePoint => a.time < b.time) (k :: rest) := hs
  rcases eq_or_lt_of_le h with heq | hlt
  · exact scanPrevNext_exact t (k :: rest) hs' (rest.getLastD k)
      (List.getLastD_mem_cons rest k) heq k (rest.getLastD k)
  · have hall : ∀ x ∈ k :: rest, (x.time : ℚ) < t := by
      intro x hx
      have hle : x.time ≤ (rest.getLastD k).time :=
        time_le_getLastD_of_sorted k rest (hs'.imp fun hab => le_of_lt hab) x hx
      have : (x.time : ℚ) ≤ ((rest.getLastD k).time : ℚ) := by exact_mod_cast hle
      linarith
    rw [selectFrom, scanPrevNext_all_lt t (k :: rest) k (rest.getLastD k) hall,
      List.getLastD_cons]

/-- On a strictly sorted layer, a query exactly at a keyframe's time selects
`prev = next =` that keyframe. -/
theorem selectFrom_exact {t : ℚ} (k : KeyframePoint) (rest : List KeyframePoint)
    (hs : List.Pairwise kfLT (k :: rest)) (x : KeyframePoint)
    (hx : x ∈ k :: rest) (hxt : (x.time : ℚ) = t) :
    selectFrom t k rest = (x, x) :=
  scanPrevNext_exact t (k :: rest) hs x hx hxt k (rest.getLastD k)

/-- Unfolding `sampleLayer` on a nonempty layer. -/
theorem sampleLayer_cons (k : KeyframePoint) (rest : List KeyframePoint) (t : ℚ) :
    sampleLayer (k :: rest) t =
      some (pairSample (selectFrom t k rest).1 (selectFrom t k rest).2
        (clamp ((t - ((selectFrom t k rest).1.time : ℚ))
          / ((if (selectFrom t k rest).2.time - (selectFrom t k rest).1.time = 0 then 1
              else (selectFrom t k rest).2.time - (selectFrom t k rest).1.time : ℤ) : ℚ)) 0 1)) :=
  rfl

/-- When the scan selects a coincident pair, the sample is that keyframe's
own values (its opacity being in range). -/
theorem sampleLayer_diag {t : ℚ} (k : KeyframePoint) (rest : List KeyframePoint)
    (x : KeyframePoint) (hsel : selectFrom t k rest = (x, x))
    (h0 : 0 ≤ x.opacity) (h1 : x.opacity ≤ 1) :
    sampleLayer (k :: rest) t = some (x.translate, x.opacity) := by
  rw [sampleLayer_cons, hsel]
  simp only
  rw [pairSample_diag x _ h0 h1]

instance : DecidableRel kfLT := fun a b => inferInstanceAs (Decidable (a.time < b.time))

/-- C1 (counterexample): with two keyframes sharing time `0` (values
`translate = 0` and `translate = 7`), sampling at `t = 0` returns the FIRST
keyframe's values `(0, 1)`, although the claim's `prev` — the LAST keyframe
with `time ≤ t`, namely `kfDupB` — has `translate = 7`; likewise `t` equals
`kfDupB`'s own time yet the sample is not `kfDupB`'s `(translate, opacity)`.
The list is sorted ascending by time, so the claim's hypothesis holds. -/
theorem interp_duplicate_time_counterexample :
    sampleLayer [kfDupA, kfDupB] 0 = some (0, 1)
    ∧ List.Pairwise kfLE [kfDupA, kfDupB]
    ∧ ([kfDupA, kfDupB].filter (fun y => decide ((y.time : ℚ) ≤ 0))).getLastD kfDupA = kfDupB
    ∧ kfDupB.translate = 7
    ∧ ((kfDupB.time : ℚ)) = 0
    ∧ sampleLayer [kfDupA, kfDupB] 0 ≠ some (kfDupB.translate, kfDupB.opacity) := by
  refine ⟨?_, ?_, ?_, ?_, ?_, ?_⟩ <;>
    norm_num +decide [sampleLayer, selectFrom, scanPrevNext, pairSample, easedOf, easeNamed,
      effEasing, clamp, lerp, kfDupA, kfDupB, kfLE, List.pairwise_cons]

/-- C1 (amended): on a layer whose keyframe times are strictly increasing,
the scan selects `prev` as the last keyframe with `time ≤ t` (defaulting to
the first) and `next` as the first keyframe with `time ≥ t` (defaulting to
the last), and the sample is the eased pair at local progress
`clamp((t - prev.time) / max(1, next.time - prev.time), 0, 1)`; at or
before the first keyframe's time, at or after the last's, or exactly at a
keyframe's time, the sample equals that boundary keyframe's
`(translate, opacity)` exactly (opacities being in `[0, 1]`).  (With merely
non-strictly sorted times — duplicates allowed — the boundary keyframe
selected is the first of the duplicates, see the counterexample.) -/
theorem interp_selection_amended (k : KeyframePoint) (rest : List KeyframePoint)
    (hs : List.Pairwise kfLT (k :: rest))
    (hop : ∀ y ∈ k :: rest, 0 ≤ y.opacity ∧ y.opacity ≤ 1)
    (t tB tA tE : ℚ) (x : KeyframePoint)
    (hB : tB ≤ (k.time : ℚ))
    (hA : ((rest.getLastD k).time : ℚ) ≤ tA)
    (hx : x ∈ k :: rest) (hE : (x.time : ℚ) = tE) :
    (selectFrom t k rest).1
        = ((k :: rest).filter (fun y => decide ((y.time : ℚ) ≤ t))).getLastD k
    ∧ (selectFrom t k rest).2
        = ((k :: rest).find? (fun y => decide (t ≤ (y.time : ℚ)))).getD (rest.getLastD k)
    ∧ sampleLayer (k :: rest) t
        = some (pairSample (selectFrom t k rest).1 (selectFrom t k rest).2
            (clamp ((t - ((selectFrom t k rest).1.time : ℚ))
              / ((max 1 ((selectFrom t k rest).2.time - (selectFrom t k rest).1.time) : ℤ) : ℚ)) 0 1))
    ∧ sampleLayer (k :: rest) tB = some (k.translate, k.opacity)
    ∧ sampleLayer (k :: rest) tA
        = some ((rest.getLastD k).translate, (rest.getLastD k).opacity)
    ∧ sampleLayer (k :: rest) tE = some (x.translate, x.opacity) := by
  have hs' : List.Pairwise (fun a b : KeyframePoint => a.time < b.time) (k :: rest) := hs
  have hsle : List.Pairwise kfLE (k :: rest) := hs'.imp fun hab => le_of_lt hab
  have hchar := scanPrevNext_char t (k :: rest) hs' k (rest.getLastD k)
  refine ⟨?_, ?_, ?_, ?_, ?_, ?_⟩
  · rw [selectFrom, hchar]
  · rw [selectFrom, hchar]
  · rw [sampleLayer_cons]
    rw [span_guard_eq_max (by exact_mod_cast Int.sub_nonneg.mpr (selectFrom_mono t k rest hsle))]
  · exact sampleLayer_diag k rest k (selectFrom_before k rest hB)
      (hop k (List.mem_cons_self k rest)).1 (hop k (List.mem_cons_self k rest)).2
  · exact sampleLayer_diag k rest (rest.getLastD k) (selectFrom_after k rest hs hA)
      (hop _ (List.getLastD_mem_cons rest k)).1 (hop _ (List.getLastD_mem_cons rest k)).2
  · exact sampleLayer_diag k rest x (selectFrom_exact k rest hs x hx hE)
      (hop x hx).1 (hop x hx).2

/-- Witness for `interp_selection_amended` on a concrete two-keyframe layer
with query times inside, before, after, and exactly at a keyframe. -/
theorem interp_selection_amended_witness :
    List.Pairwise kfLT [kfLinA, kfLinB]
    ∧ ((selectFrom 250 kfLinA [kfLinB]).1
        = ([kfLinA, kfLinB].filter (fun y => decide ((y.time : ℚ) ≤ 250))).getLastD kfLinA
      ∧ (selectFrom 250 kfLinA [kfLinB]).2
        = ([kfLinA, kfLinB].find? (fun y => decide ((250 : ℚ) ≤ (y.time : ℚ)))).getD
            ([kfLinB].getLastD kfLinA)
      ∧ sampleLayer [kfLinA, kfLinB] 250
        = some (pairSample (selectFrom 250 kfLinA [kfLinB]).1 (selectFrom 250 kfLinA [kfLinB]).2
            (clamp ((250 - ((selectFrom 250 kfLinA [kfLinB]).1.time : ℚ))
              / ((max 1 ((selectFrom 250 kfLinA [kfLinB]).2.time
                  - (selectFrom 250 kfLinA [kfLinB]).1.time) : ℤ) : ℚ)) 0 1))
      ∧ sampleLayer [kfLinA, kfLinB] (-5) = some (kfLinA.translate, kfLinA.opacity)
      ∧ sampleLayer [kfLinA, kfLinB] 2000
        = some (([kfLinB].getLastD kfLinA).translate, ([kfLinB].getLastD kfLinA).opacity)
      ∧ sampleLayer [kfLinA, kfLinB] 1000 = some (kfLinB.translate, kfLinB.opacity)) :=
  ⟨by decide,
   interp_selection_amended kfLinA [kfLinB] (by decide) (by decide) 250 (-5) 2000 1000 kfLinB
     (by decide) (by decide) (by decide) (by decide)⟩

/-- C2 (confirmed): for a bounding pair and local progress `p ∈ [0, 1]`,
easing resolves from `next`'s bezier control points when present, else from
`next.easing` (`ease-in`: `p²`, `ease-out`: `p(2-p)`, `ease`: the split
quadratic, anything else or absent: linear), and the sample is
`translate = lerp(prev.translate, next.translate, eased)` with painted
opacity `clamp(lerp(prev.opacity, next.opacity, eased), 0, 1)`. -/
theorem easing_resolution_and_output
    (prev next nB nI nO nE nL : KeyframePoint) (p b1 b2 b3 b4 : ℚ)
    (_hp0 : 0 ≤ p) (_hp1 : p ≤ 1)
    (hB : nB.bezier = some (b1, b2, b3, b4))
    (hI1 : nI.bezier = none) (hI2 : nI.easing = some "ease-in")
    (hO1 : nO.bezier = none) (hO2 : nO.easing = some "ease-out")
    (hE1 : nE.bezier = none) (hE2 : nE.easing = some "ease")
    (hL1 : nL.bezier = none)
    (hL2 : effEasing nL ≠ "ease-in") (hL3 : effEasing nL ≠ "ease-out")
    (hL4 : effEasing nL ≠ "ease") :
    easedOf nB p = cubicBezierEasing b1 b2 b3 b4 p
    ∧ easedOf nI p = p * p
    ∧ easedOf nO p = p * (2 - p)
    ∧ easedOf nE p = (if p < 1/2 then 2 * p * p else -1 + (4 - 2 * p) * p)
    ∧ easedOf nL p = p
    ∧ (pairSample prev next p).1 = lerp prev.translate next.translate (easedOf next p)
    ∧ (pairSample prev next p).2 = clamp (lerp prev.opacity next.opacity (easedOf next p)) 0 1 := by
  refine ⟨?_, ?_, ?_, ?_, ?_, rfl, rfl⟩
  · simp [easedOf, hB]
  · simp +decide [easedOf, hI1, effEasing, hI2, easeNamed]
  · simp +decide [easedOf, hO1, effEasing, hO2, easeNamed]
  · simp +decide [easedOf, hE1, effEasing, hE2, easeNamed]
  · simp only [easedOf, hL1, easeNamed]
    rw [if_neg hL2, if_neg hL3, if_neg hL4]

/-- Witness for `easing_resolution_and_output` at `p = 1/2` over concrete
keyframes exercising each easing kind. -/
theorem easing_resolution_and_output_witness :
    (0 : ℚ) ≤ 1/2 ∧ (1/2 : ℚ) ≤ 1
    ∧ (easedOf kfBez (1/2) = cubicBezierEasing (1/4) (1/10) (1/4) 1 (1/2)
      ∧ easedOf kfEaseA (1/2) = 1/2 * (1/2)
      ∧ easedOf kfOut (1/2) = 1/2 * (2 - 1/2)
      ∧ easedOf kfEase (1/2)
          = (if (1/2 : ℚ) < 1/2 then 2 * (1/2) * (1/2) else -1 + (4 - 2 * (1/2)) * (1/2))
      ∧ easedOf kfLinA (1/2) = 1/2
      ∧ (pairSample kfLinA kfLinB (1/2)).1
          = lerp kfLinA.translate kfLinB.translate (easedOf kfLinB (1/2))
      ∧ (pairSample kfLinA kfLinB (1/2)).2
          = clamp (lerp kfLinA.opacity kfLinB.opacity (easedOf kfLinB (1/2))) 0 1) :=
  ⟨by norm_num, by norm_num,
   easing_resolution_and_output kfLinA kfLinB kfBez kfEaseA kfOut kfEase kfLinA
     (1/2) (1/4) (1/10) (1/4) 1 (by norm_num) (by norm_num) rfl rfl (by decide)
     rfl (by decide) rfl (by decide) rfl (by decide) (by decide) (by decide)⟩

/-- Sorting never changes the number of keyframes. -/
theorem sortKfs_length (l : List KeyframePoint) : (sortKfs l).length = l.length :=
  (List.perm_insertionSort kfLE l).length_eq

/-- Sorting a nonempty keyframe list yields a nonempty list. -/
theorem sortKfs_ne_nil {l : List KeyframePoint} (h : l ≠ []) : sortKfs l ≠ [] := by
  intro hc
  apply h
  rw [← List.length_eq_zero, ← sortKfs_length, hc, List.length_nil]

/-- C3 (confirmed): after `updateKeyframe` (any patch, in particular a time
patch), `addKeyframe` (at any time) and `removeKeyframe`, every layer's
keyframe list is sorted ascending by time, assuming all layers were sorted
before (the two mutating sorts need no assumption; `removeKeyframe` merely
filters, preserving the existing order). -/
theorem keyframe_mutations_preserve_sorted
    (layers : List LayerConfig) (lid kid nid : String) (patch : KfPatch) (tm : ℤ)
    (l1 l2 l3 : LayerConfig)
    (hs : ∀ l ∈ layers, List.Pairwise kfLE l.keyframes)
    (h1 : l1 ∈ updateKeyframe layers lid kid patch)
    (h2 : l2 ∈ addKeyframe layers lid nid tm)
    (h3 : l3 ∈ removeKeyframe layers lid kid) :
    List.Pairwise kfLE l1.keyframes
    ∧ List.Pairwise kfLE l2.keyframes
    ∧ List.Pairwise kfLE l3.keyframes := by
  refine ⟨?_, ?_, ?_⟩
  · obtain ⟨l, hl, rfl⟩ := List.mem_map.mp h1
    unfold updateKfLayer
    split_ifs
    · exact List.sorted_insertionSort kfLE _
    · exact hs l hl
  · obtain ⟨l, hl, rfl⟩ := List.mem_map.mp h2
    unfold addKfLayer
    split_ifs
    · exact List.sorted_insertionSort kfLE _
    · exact hs l hl
  · obtain ⟨l, hl, rfl⟩ := List.mem_map.mp h3
    unfold removeKfLayer
    split_ifs
    · exact List.Pairwise.sublist (List.filter_sublist _) (hs l hl)
    · exact hs l hl

/-- Witness for `keyframe_mutations_preserve_sorted` on a concrete layer. -/
theorem keyframe_mutations_preserve_sorted_witness :
    List.Pairwise kfLE (updateKfLayer "L" "a" patch500 layerOne).keyframes
    ∧ List.Pairwise kfLE (addKfLayer "L" "n" 600 layerOne).keyframes
    ∧ List.Pairwise kfLE (removeKfLayer "L" "a" layerOne).keyframes :=
  keyframe_mutations_preserve_sorted [layerOne] "L" "a" "n" patch500 600
    (updateKfLayer "L" "a" patch500 layerOne) (addKfLayer "L" "n" 600 layerOne)
    (removeKfLayer "L" "a" layerOne)
    (by decide) (by simp [updateKeyframe]) (by simp [addKeyframe]) (by simp [removeKeyframe])

/-- C4 (counterexample): the keyframe time input stores
`Number(e.target.value)` without clamping — entering `-50` stores `-50`,
outside `[0, 2000]`; and the drag handler snaps AFTER clamping, so with
duration `2000` and snap interval `300` a drag at the right edge stores
`2100 > 2000`. -/
theorem time_clamp_counterexample :
    ((updateKfLayer "L" "a" { time := some (inputStoredTime (-50)) } layerOne).keyframes.map
        (fun k => k.time)) = [-50, 1000]
    ∧ ¬((0 : ℤ) ≤ -50)
    ∧ dragStoredTime 10000 0 1000 2000 true 300 = 2100
    ∧ ¬(dragStoredTime 10000 0 1000 2000 true 300 ≤ 2000) := by
  refine ⟨by decide, by decide, ?_, ?_⟩
  · norm_num [dragStoredTime, clamp, snap, jsRound]
  · norm_num [dragStoredTime, clamp, snap, jsRound]

/-- Bounds of the drag-stored time: always nonnegative; within
`[0, duration]` when snapping is off; with snapping on, at most
`duration + snapInterval/2` (stated integrally as `2·t ≤ 2·duration + i`). -/
theorem dragStoredTime_bounds (clientX rectLeft rectWidth : ℚ) (duration i : ℤ)
    (hd : 0 ≤ duration) (hi : 0 < i) :
    0 ≤ dragStoredTime clientX rectLeft rectWidth duration false i
    ∧ dragStoredTime clientX rectLeft rectWidth duration false i ≤ duration
    ∧ 0 ≤ dragStoredTime clientX rectLeft rectWidth duration true i
    ∧ 2 * dragStoredTime clientX rectLeft rectWidth duration true i ≤ 2 * duration + i := by
  have hdq : (0 : ℚ) ≤ (duration : ℚ) := by exact_mod_cast hd
  have hiq : (0 : ℚ) < (i : ℚ) := by exact_mod_cast hi
  set c := clamp ((clientX - rectLeft) / rectWidth) 0 1 with hc
  have hc0 : 0 ≤ c := (clamp01_mem _).1
  have hc1 : c ≤ 1 := (clamp01_mem _).2
  have ht0 : 0 ≤ c * (duration : ℚ) := mul_nonneg hc0 hdq
  have ht1 : c * (duration : ℚ) ≤ (duration : ℚ) := by
    calc c * (duration : ℚ) ≤ 1 * (duration : ℚ) := mul_le_mul_of_nonneg_right hc1 hdq
      _ = (duration : ℚ) := one_mul _
  constructor
  · show (0 : ℤ) ≤ jsRound _
    simp only [dragStoredTime, if_neg (by simp : ¬((false : Bool) ∧ 0 < i))]
    unfold jsRound
    rw [Int.le_floor]
    push_cast
    linarith
  constructor
  · show jsRound _ ≤ duration
    simp only [dragStoredTime, if_neg (by simp : ¬((false : Bool) ∧ 0 < i))]
    unfold jsRound
    calc ⌊c * (duration : ℚ) + 1/2⌋ ≤ ⌊(duration : ℚ) + 1/2⌋ :=
        Int.floor_le_floor (by linarith)
      _ = duration + ⌊(1/2 : ℚ)⌋ := Int.floor_int_add duration (1/2)
      _ = duration := by norm_num
  · have hz : dragStoredTime clientX rectLeft rectWidth duration true i
        = jsRound (snap (c * (duration : ℚ)) i) := by
      unfold dragStoredTime
      simp only []
      split_ifs with hsf
      · rw [hc]
      · exact absurd ⟨trivial, hi⟩ hsf
    set z := jsRound (c * (duration : ℚ) / (i : ℚ)) with hzdef
    have hsnap : snap (c * (duration : ℚ)) i = ((z * i : ℤ) : ℚ) := by
      simp only [snap, if_pos hi, hzdef]
      push_cast
      ring
    have hround : jsRound (((z * i : ℤ) : ℚ)) = z * i := by
      unfold jsRound
      rw [Int.floor_int_add]
      norm_num
    have hzval : dragStoredTime clientX rectLeft rectWidth duration true i = z * i := by
      rw [hz, hsnap, hround]
    have hz0 : 0 ≤ z := by
      rw [hzdef]
      unfold jsRound
      rw [Int.le_floor]
      have : 0 ≤ c * (duration : ℚ) / (i : ℚ) := div_nonneg ht0 (le_of_lt hiq)
      push_cast
      linarith
    have hzle : (z : ℚ) ≤ c * (duration : ℚ) / (i : ℚ) + 1/2 := by
      rw [hzdef]
      exact le_of_eq_of_le rfl (Int.floor_le _)
    constructor
    · rw [hzval]
      positivity
    · rw [hzval]
      have hmul : (z : ℚ) * (i : ℚ) ≤ c * (duration : ℚ) + (i : ℚ)/2 := by
        calc (z : ℚ) * (i : ℚ)
            ≤ (c * (duration : ℚ) / (i : ℚ) + 1/2) * (i : ℚ) :=
              mul_le_mul_of_nonneg_right hzle (le_of_lt hiq)
          _ = c * (duration : ℚ) + (i : ℚ)/2 := by
              field_simp
              ring
      have h2 : (2 : ℚ) * ((z : ℚ) * (i : ℚ)) ≤ 2 * (duration : ℚ) + (i : ℚ) := by linarith
      exact_mod_cast h2

/-- C4 (amended): keyboard nudges clamp to `[0, duration]`; pointer drag
clamps its candidate to `[0, duration]` before snapping, so the stored
drag time is in `[0, duration]` when snapping is off, and with snapping on
it is nonnegative but can exceed the duration by up to half a snap
interval; numeric entry stores the entered value without clamping. -/
theorem time_mutation_bounds_amended
    (duration kt delta i v : ℤ) (clientX rectLeft rectWidth : ℚ)
    (hd : 0 ≤ duration) (hkt0 : 0 ≤ kt) (hkt1 : kt ≤ duration) (hdelta : 0 ≤ delta)
    (hi : 0 < i) :
    0 ≤ nudgeLeftTime kt delta ∧ nudgeLeftTime kt delta ≤ duration
    ∧ 0 ≤ nudgeRightTime duration kt delta ∧ nudgeRightTime duration kt delta ≤ duration
    ∧ 0 ≤ dragStoredTime clientX rectLeft rectWidth duration false i
    ∧ dragStoredTime clientX rectLeft rectWidth duration false i ≤ duration
    ∧ 0 ≤ dragStoredTime clientX rectLeft rectWidth duration true i
    ∧ 2 * dragStoredTime clientX rectLeft rectWidth duration true i ≤ 2 * duration + i
    ∧ inputStoredTime v = v := by
  obtain ⟨b1, b2, b3, b4⟩ := dragStoredTime_bounds clientX rectLeft rectWidth duration i hd hi
  refine ⟨?_, ?_, ?_, ?_, b1, b2, b3, b4, rfl⟩ <;>
    simp only [nudgeLeftTime, nudgeRightTime] <;> omega

/-- Witness for `time_mutation_bounds_amended` at concrete drag geometry. -/
theorem time_mutation_bounds_amended_witness :
    (0 : ℤ) ≤ 2000 ∧ (0 : ℤ) ≤ 700 ∧ (700 : ℤ) ≤ 2000 ∧ (0 : ℤ) ≤ 10 ∧ (0 : ℤ) < 50
    ∧ (0 ≤ nudgeLeftTime 700 10 ∧ nudgeLeftTime 700 10 ≤ 2000
      ∧ 0 ≤ nudgeRightTime 2000 700 10 ∧ nudgeRightTime 2000 700 10 ≤ 2000
      ∧ 0 ≤ dragStoredTime 640 40 800 2000 false 50
      ∧ dragStoredTime 640 40 800 2000 false 50 ≤ 2000
      ∧ 0 ≤ dragStoredTime 640 40 800 2000 true 50
      ∧ 2 * dragStoredTime 640 40 800 2000 true 50 ≤ 2 * 2000 + 50
      ∧ inputStoredTime 123 = 123) :=
  ⟨by decide, by decide, by decide, by decide, by decide,
   time_mutation_bounds_amended 2000 700 10 50 123 640 40 800
     (by decide) (by decide) (by decide) (by decide) (by decide)⟩

/-- C9 (counterexample): starting from a freshly created layer (two default
keyframes, so non-empty at creation), two explicit keyframe removals — the
unguarded Delete handler — reach a state whose keyframe list is empty, so
the empty sequence IS reachable through the editor's operations. -/
theorem empty_keyframes_reachable_counterexample :
    (defaultLayer "L" "a" "b").keyframes ≠ []
    ∧ (removeKeyframe (removeKeyframe [defaultLayer "L" "a" "b"] "L" "a") "L" "b").map
        (fun l => l.keyframes) = [[]] := by
  refine ⟨by decide, by decide⟩

/-- C9 (amended): layers are created with two keyframes and keyframes are
destroyed only by explicit removal; `addKeyframe` and `updateKeyframe`
preserve non-emptiness — but explicit removal is unguarded and can empty
the list (see the counterexample); the interpolation engine defensively
skips a layer with no keyframes instead of crashing. -/
theorem keyframes_nonempty_amended
    (lid ka kb lid2 nid kid lid3 : String) (tm : ℤ) (patch : KfPatch)
    (l l2 : LayerConfig) (hl : l.keyframes ≠ []) (hl2 : l2.keyframes ≠ []) (t : ℚ) :
    (defaultLayer lid ka kb).keyframes ≠ []
    ∧ (addKfLayer lid2 nid tm l).keyframes ≠ []
    ∧ (updateKfLayer lid3 kid patch l2).keyframes ≠ []
    ∧ sampleLayer [] t = none := by
  refine ⟨by simp [defaultLayer], ?_, ?_, rfl⟩
  · unfold addKfLayer
    split_ifs
    · exact sortKfs_ne_nil (by simp)
    · exact hl
  · unfold updateKfLayer
    split_ifs
    · apply sortKfs_ne_nil
      simpa using hl2
    · exact hl2

/-- Witness for `keyframes_nonempty_amended` on a concrete layer. -/
theorem keyframes_nonempty_amended_witness :
    layerOne.keyframes ≠ [] ∧ layerOther.keyframes ≠ []
    ∧ ((defaultLayer "L" "a" "b").keyframes ≠ []
      ∧ (addKfLayer "L" "n" 600 layerOne).keyframes ≠ []
      ∧ (updateKfLayer "L" "a" patch500 layerOther).keyframes ≠ []
      ∧ sampleLayer [] 42 = none) :=
  ⟨by decide, by decide,
   keyframes_nonempty_amended "L" "a" "b" "L" "n" "a" "L" 600 patch500 layerOne layerOther
     (by decide) (by decide) 42⟩

/-- C5 (confirmed): a playback tick that observes elapsed `now - start ≥
duration` sets `currentTime` to exactly `duration`, stops playback, and does
not reschedule; and the concrete scenario — `play()` at `currentTime = 0`
with duration `1000`, ticks through `1200ms` — ends Stopped at exactly
`1000`. -/
theorem playback_clamps_and_stops (duration start now : ℚ) (s : PlaybackState)
    (h : duration ≤ now - start) :
    tick duration start now s = ({ playing := false, currentTime := duration }, false)
    ∧ runTicks 1000 0 [0, 300, 600, 900, 1200] { playing := true, currentTime := 0 }
        = { playing := false, currentTime := 1000 } := by
  constructor
  · unfold tick
    rw [if_pos h]
  · norm_num [runTicks, tick]

/-- Witness for `playback_clamps_and_stops` at a concrete overshooting tick. -/
theorem playback_clamps_and_stops_witness :
    (1000 : ℚ) ≤ 1500 - 0
    ∧ (tick 1000 0 1500 { playing := true, currentTime := 900 }
        = ({ playing := false, currentTime := 1000 }, false)
      ∧ runTicks 1000 0 [0, 300, 600, 900, 1200] { playing := true, currentTime := 0 }
        = { playing := false, currentTime := 1000 }) :=
  ⟨by norm_num,
   playback_clamps_and_stops 1000 0 1500 { playing := true, currentTime := 900 } (by norm_num)⟩

/-- C7 (confirmed): loading presets returns `[]` for an absent key, `[]`
for the (falsy) empty string, `[]` whenever `JSON.parse` throws, and the
parsed value otherwise — in particular it is a total function and never
propagates the exception to the caller. -/
theorem load_presets_fail_soft (parse : String → Except Unit (List Preset))
    (raw raw2 : String) (v : List Preset)
    (hraw : parse raw = Except.error ()) (hne : raw ≠ "")
    (hok : parse raw2 = Except.ok v) (hne2 : raw2 ≠ "") :
    loadPresets parse none = []
    ∧ loadPresets parse (some "") = []
    ∧ loadPresets parse (some raw) = []
    ∧ loadPresets parse (some raw2) = v := by
  refine ⟨rfl, rfl, ?_, ?_⟩
  · simp only [loadPresets]
    rw [if_neg hne, hraw]
  · simp only [loadPresets]
    rw [if_neg hne2, hok]

/-- Witness for `load_presets_fail_soft` with a parse model that throws on
`"bad"` and parses `"good"`. -/
theorem load_presets_fail_soft_witness :
    parseDemo "bad" = Except.error () ∧ ("bad" : String) ≠ ""
    ∧ parseDemo "good" = Except.ok ([] : List Preset) ∧ ("good" : String) ≠ ""
    ∧ (loadPresets parseDemo none = []
      ∧ loadPresets parseDemo (some "") = []
      ∧ loadPresets parseDemo (some "bad") = []
      ∧ loadPresets parseDemo (some "good") = []) :=
  ⟨by simp [parseDemo], by decide, by simp [parseDemo], by decide,
   load_presets_fail_soft parseDemo "bad" "good" [] (by simp [parseDemo]) (by decide)
     (by simp [parseDemo]) (by decide)⟩

/-- C8 (counterexample): inside an animation-frame callback no event is
being dispatched (`window.event` is absent), so the poll falls back to the
pointer-DOWN position, not the current pointer.  With the drag started at
the track centre (`500`), the poll leaves `scrollLeft` unchanged even while
the actual pointer sits at `x = 10`, inside the `48px` left margin; and with
the drag started at `x = 10`, the poll keeps scrolling (`100 → 88`) even
after the pointer has moved to the centre, outside both margins. -/
theorem auto_scroll_stale_pointer_counterexample :
    autoScrollStep (some dsCenter) none 0 1000 100 = 100
    ∧ ((10 : ℚ) - 0 < 48)
    ∧ autoScrollStep (some dsEdge) none 0 1000 100 = 88
    ∧ ¬((500 : ℚ) - 0 < 48) ∧ ¬((1000 : ℚ) - 500 < 48) := by
  refine ⟨?_, by norm_num, ?_, by norm_num, by norm_num⟩ <;>
    norm_num [autoScrollStep, dsCenter, dsEdge]

/-- C8 (amended): the per-frame poll is independent of pointer-move events,
but evaluates the edge test against `window.event`'s `clientX` when an event
is dispatching and otherwise against the pointer-DOWN position (not the
current pointer).  Per frame, relative to that stale position: within the
left margin the offset decreases (clamped at `0`), within the right margin
it increases by `12`, otherwise — or once the drag ends — it stays put. -/
theorem auto_scroll_step_amended (we : Option ℚ) (dsL dsR dsN : DragState)
    (srl srr s : ℚ) (hs0 : 0 < s)
    (hL : dsL.rectLeft + dsL.offsetX - srl < 48)
    (hR1 : ¬(dsR.rectLeft + dsR.offsetX - srl < 48))
    (hR2 : srr - (dsR.rectLeft + dsR.offsetX) < 48)
    (hN1 : ¬(dsN.rectLeft + dsN.offsetX - srl < 48))
    (hN2 : ¬(srr - (dsN.rectLeft + dsN.offsetX) < 48)) :
    autoScrollStep none we srl srr s = s
    ∧ autoScrollStep (some dsL) none srl srr s = max 0 (s - 12)
    ∧ max 0 (s - 12) < s
    ∧ autoScrollStep (some dsR) none srl srr s = s + 12
    ∧ s < s + 12
    ∧ autoScrollStep (some dsN) none srl srr s = s := by
  have hstep : ∀ ds : DragState,
      autoScrollStep (some ds) none srl srr s =
        (if ds.rectLeft + ds.offsetX - srl < 48 then max 0 (s - 12)
         else if srr - (ds.rectLeft + ds.offsetX) < 48 then s + 12 else s) := by
    intro ds
    simp [autoScrollStep]
  refine ⟨rfl, ?_, ?_, ?_, by linarith, ?_⟩
  · rw [hstep, if_pos hL]
  · rcases le_or_lt s 12 with h | h
    · rw [max_eq_left (by linarith)]
      exact hs0
    · rw [max_eq_right (by linarith)]
      linarith
  · rw [hstep, if_neg hR1, if_pos hR2]
  · rw [hstep, if_neg hN1, if_neg hN2]

/-- Witness for `auto_scroll_step_amended` on the `[0, 1000]` track at
`scrollLeft = 100`, with drags started at the left edge, the right edge and
the centre. -/
theorem auto_scroll_step_amended_witness :
    (0 : ℚ) < 100
    ∧ (dsEdge.rectLeft + dsEdge.offsetX - 0 < 48)
    ∧ ¬(dsRight.rectLeft + dsRight.offsetX - 0 < 48)
    ∧ (1000 - (dsRight.rectLeft + dsRight.offsetX) < 48)
    ∧ ¬(dsCenter.rectLeft + dsCenter.offsetX - 0 < 48)
    ∧ ¬(1000 - (dsCenter.rectLeft + dsCenter.offsetX) < 48)
    ∧ (autoScrollStep none (some 77) 0 1000 100 = 100
      ∧ autoScrollStep (some dsEdge) none 0 1000 100 = max 0 (100 - 12)
      ∧ max 0 ((100 : ℚ) - 12) < 100
      ∧ autoScrollStep (some dsRight) none 0 1000 100 = 100 + 12
      ∧ (100 : ℚ) < 100 + 12
      ∧ autoScrollStep (some dsCenter) none 0 1000 100 = 100) :=
  ⟨by norm_num, by norm_num [dsEdge], by norm_num [dsRight], by norm_num [dsRight],
   by norm_num [dsCenter], by norm_num [dsCenter],
   auto_scroll_step_amended (some 77) dsEdge dsRight dsCenter 0 1000 100
     (by norm_num) (by norm_num [dsEdge]) (by norm_num [dsRight]) (by norm_num [dsRight])
     (by norm_num [dsCenter]) (by norm_num [dsCenter])⟩

/-- C10 (confirmed): `updateKeyframe` maps the per-layer update over all
layers; a layer with a different id is completely unchanged; inside the
targeted layer every keyframe whose id differs from `kfId` survives with all
its fields intact (only its position may change); and when no keyframe
matches, the keyframe contents are unchanged (a permutation always, and the
very same list when the layer was sorted). -/
theorem update_keyframe_frame_conditions
    (layers : List LayerConfig) (lid kid : String) (patch : KfPatch)
    (lOther lT lNo : LayerConfig) (kKeep : KeyframePoint)
    (hOther : lOther.id ≠ lid)
    (hk : kKeep ∈ lT.keyframes) (hkid : kKeep.id ≠ kid)
    (hNo : ∀ k ∈ lNo.keyframes, k.id ≠ kid)
    (hNoSorted : List.Pairwise kfLE lNo.keyframes) :
    updateKeyframe layers lid kid patch = layers.map (updateKfLayer lid kid patch)
    ∧ updateKfLayer lid kid patch lOther = lOther
    ∧ kKeep ∈ (updateKfLayer lid kid patch lT).keyframes
    ∧ (updateKfLayer lid kid patch lNo).keyframes.Perm lNo.keyframes
    ∧ (updateKfLayer lid kid patch lNo).keyframes = lNo.keyframes := by
  have hmapNo : lNo.keyframes.map
      (fun k => if k.id = kid then applyPatch k patch else k) = lNo.keyframes := by
    have hgen : ∀ (ks : List KeyframePoint), (∀ k ∈ ks, k.id ≠ kid) →
        ks.map (fun k => if k.id = kid then applyPatch k patch else k) = ks := by
      intro ks hks
      induction ks with
      | nil => rfl
      | cons a as ih =>
        simp only [List.map_cons]
        rw [if_neg (hks a (List.mem_cons_self a as)),
          ih (fun k hkm => hks k (List.mem_cons_of_mem a hkm))]
    exact hgen lNo.keyframes hNo
  refine ⟨rfl, ?_, ?_, ?_, ?_⟩
  · unfold updateKfLayer
    rw [if_neg hOther]
  · unfold updateKfLayer
    split_ifs
    · have hmem : kKeep ∈ lT.keyframes.map
          (fun k => if k.id = kid then applyPatch k patch else k) := by
        apply List.mem_map.mpr
        exact ⟨kKeep, hk, by rw [if_neg hkid]⟩
      show kKeep ∈ List.insertionSort kfLE _
      exact (List.perm_insertionSort kfLE _).mem_iff.mpr hmem
    · exact hk
  · unfold updateKfLayer
    split_ifs
    · show (sortKfs _).Perm _
      unfold sortKfs
      rw [hmapNo]
      exact List.perm_insertionSort kfLE lNo.keyframes
    · exact List.Perm.refl _
  · unfold updateKfLayer
    split_ifs
    · show sortKfs _ = _
      unfold sortKfs
      rw [hmapNo]
      exact List.Sorted.insertionSort_eq hNoSorted
    · rfl

/-- Witness for `update_keyframe_frame_conditions` on concrete layers. -/
theorem update_keyframe_frame_conditions_witness :
    layerOther.id ≠ "L" ∧ kfLinB ∈ layerOne.keyframes ∧ kfLinB.id ≠ "a"
    ∧ (updateKeyframe [layerOne, layerOther] "L" "a" patch500
        = [layerOne, layerOther].map (updateKfLayer "L" "a" patch500)
      ∧ updateKfLayer "L" "a" patch500 layerOther = layerOther
      ∧ kfLinB ∈ (updateKfLayer "L" "a" patch500 layerOne).keyframes
      ∧ (updateKfLayer "L" "a" patch500 layerNo).keyframes.Perm layerNo.keyframes
      ∧ (updateKfLayer "L" "a" patch500 layerNo).keyframes = layerNo.keyframes) :=
  ⟨by decide, by decide, by decide,
   update_keyframe_frame_conditions [layerOne, layerOther] "L" "a" patch500
     layerOther layerOne layerNo kfLinB
     (by decide) (by decide) (by decide) (by decide) (by decide)⟩

/-- `lerp` between endpoints in `[0, 1]` at progress in `[0, 1]` stays in
`[0, 1]` (so the editor's opacity clamp is a no-op there). -/
theorem lerp01_mem {a b p : ℚ} (ha0 : 0 ≤ a) (ha1 : a ≤ 1) (hb0 : 0 ≤ b) (hb1 : b ≤ 1)
    (hp0 : 0 ≤ p) (hp1 : p ≤ 1) : 0 ≤ lerp a b p ∧ lerp a b p ≤ 1 := by
  unfold lerp
  constructor
  · nlinarith
  · nlinarith

/-- Unfolding `exportSample` on a nonempty layer (the template's
`Math.max(0, Math.min(1, ·))` is definitionally `clamp · 0 1`). -/
theorem exportSample_cons (k : KeyframePoint) (rest : List KeyframePoint) (t : ℚ) :
    exportSample (k :: rest) t =
      some ((selectFrom t k rest).1.translate
          + ((selectFrom t k rest).2.translate - (selectFrom t k rest).1.translate)
            * clamp ((t - ((selectFrom t k rest).1.time : ℚ))
                / ((max 1 ((selectFrom t k rest).2.time - (selectFrom t k rest).1.time) : ℤ) : ℚ)) 0 1,
        (selectFrom t k rest).1.opacity
          + ((selectFrom t k rest).2.opacity - (selectFrom t k rest).1.opacity)
            * clamp ((t - ((selectFrom t k rest).1.time : ℚ))
                / ((max 1 ((selectFrom t k rest).2.time - (selectFrom t k rest).1.time) : ℤ) : ℚ)) 0 1) :=
  rfl

/-- C6 (counterexample): on an `ease-in` layer the editor's sample at
`t = 500` is `(25, 1/4)` (eased progress `(1/2)² = 1/4`), but both exported
templates — which drop easing resolution and opacity clamping — produce
`(50, 1/2)`. -/
theorem export_sampling_counterexample :
    sampleLayer [kfEaseA, kfEaseB] 500 = some (25, 1/4)
    ∧ exportSample [kfEaseA, kfEaseB] 500 = some (50, 1/2)
    ∧ ¬ exportSample [kfEaseA, kfEaseB] 500 = sampleLayer [kfEaseA, kfEaseB] 500 := by
  have h1 : sampleLayer [kfEaseA, kfEaseB] 500 = some (25, 1/4) := by
    norm_num +decide [sampleLayer, selectFrom, scanPrevNext, pairSample, easedOf, easeNamed,
      effEasing, clamp, lerp, kfEaseA, kfEaseB]
  have h2 : exportSample [kfEaseA, kfEaseB] 500 = some (50, 1/2) := by
    norm_num [exportSample, selectFrom, scanPrevNext, kfEaseA, kfEaseB]
  refine ⟨h1, h2, ?_⟩
  rw [h1, h2]
  norm_num [Prod.ext_iff]

/-- C6 (amended): the exported templates agree with the editor's
interpolation exactly on layers all of whose keyframes resolve to linear
easing (no bezier control points, no named `ease-in`/`ease-out`/`ease`)
with opacities in `[0, 1]`; in general they diverge, because the templates
interpolate linearly and skip the opacity clamp (see the counterexample).
Both empty-layer behaviours agree (`none`). -/
theorem export_sampling_linear_equiv (k : KeyframePoint) (rest : List KeyframePoint) (t : ℚ)
    (hs : List.Pairwise kfLE (k :: rest))
    (hlin : ∀ y ∈ k :: rest, y.bezier = none
        ∧ effEasing y ≠ "ease-in" ∧ effEasing y ≠ "ease-out" ∧ effEasing y ≠ "ease")
    (hop : ∀ y ∈ k :: rest, 0 ≤ y.opacity ∧ y.opacity ≤ 1) :
    exportSample (k :: rest) t = sampleLayer (k :: rest) t
    ∧ exportSample ([] : List KeyframePoint) t = sampleLayer [] t := by
  refine ⟨?_, rfl⟩
  have hmono := selectFrom_mono t k rest hs
  have hspan : (0 : ℤ) ≤ (selectFrom t k rest).2.time - (selectFrom t k rest).1.time :=
    Int.sub_nonneg.mpr hmono
  obtain ⟨hPmem, hNmem⟩ := selectFrom_mem t k rest
  obtain ⟨hbez, hni, hno, hne⟩ := hlin _ hNmem
  obtain ⟨hP0, hP1⟩ := hop _ hPmem
  obtain ⟨hN0, hN1⟩ := hop _ hNmem
  rw [sampleLayer_cons, span_guard_eq_max hspan, exportSample_cons]
  set L := clamp ((t - ((selectFrom t k rest).1.time : ℚ))
      / ((max 1 ((selectFrom t k rest).2.time - (selectFrom t k rest).1.time) : ℤ) : ℚ)) 0 1
    with hLdef
  have heased : easedOf (selectFrom t k rest).2 L = L := by
    simp only [easedOf, hbez]
    unfold easeNamed
    rw [if_neg hni, if_neg hno, if_neg hne]
  have hL0 : 0 ≤ L := (clamp01_mem _).1
  have hL1 : L ≤ 1 := (clamp01_mem _).2
  have hlerp := lerp01_mem hP0 hP1 hN0 hN1 hL0 hL1
  unfold pairSample
  simp only [heased]
  rw [clamp01_of_mem hlerp.1 hlerp.2]
  unfold lerp
  rfl

/-- Witness for `export_sampling_linear_equiv` on a concrete linear layer. -/
theorem export_sampling_linear_equiv_witness :
    List.Pairwise kfLE [kfLinA, kfLinB]
    ∧ (∀ y ∈ [kfLinA, kfLinB], y.bezier = none
        ∧ effEasing y ≠ "ease-in" ∧ effEasing y ≠ "ease-out" ∧ effEasing y ≠ "ease")
    ∧ (∀ y ∈ [kfLinA, kfLinB], 0 ≤ y.opacity ∧ y.opacity ≤ 1)
    ∧ (exportSample [kfLinA, kfLinB] 250 = sampleLayer [kfLinA, kfLinB] 250
      ∧ exportSample ([] : List KeyframePoint) 250 = sampleLayer [] 250) :=
  ⟨by decide, by decide, by decide,
   export_sampling_linear_equiv kfLinA [kfLinB] 250 (by decide) (by decide) (by decide)⟩
